import Mathlib

/-!
Verification of the FlashSentry whitelist store, integrity hasher and
orchestration logic.  The definitions below are a shallow embedding of the
C++ sources (`DatabaseManager.cpp`, `HashWorker.cpp`, `MainWindow.cpp`,
`Types.h`): Qt strings become `String`, `QDateTime` becomes `Option Nat`
(milliseconds since the epoch, `none` = invalid), `QHash` tables become
association lists, signals become explicit event lists, and the file system
touched by the durability code becomes an explicit record of file contents.
-/

namespace FlashSentry

/-- ASCII lower-casing of a string, embedding the case folding performed by
`QString::compare(.., Qt::CaseInsensitive)` on the hex digests this program
compares (hex digests only contain ASCII characters). -/
def lowerStr (s : String) : String :=
  ⟨s.data.map Char.toLower⟩

/-- Embedding of `QString::compare(a, b, Qt::CaseInsensitive) == 0`. -/
def qtCaseInsensEq (a b : String) : Bool :=
  lowerStr a == lowerStr b

/-- Embedding of `QDateTime`, as `none` (an invalid/default-constructed datetime) or
`some ms` (a valid instant, in milliseconds since the epoch). -/
abbrev QDT := Option Nat

/-- Embedding of `static_cast<qint64>(n)` applied to a `uint64_t` value. -/
def toSigned64 (n : Nat) : Int :=
  if n < 2 ^ 63 then (n : Int) else (n : Int) - 2 ^ 64

/-- Embedding of `static_cast<uint64_t>(i)` applied to a `qint64` value. -/
def toUnsigned64 (i : Int) : Nat :=
  (i % (2 ^ 64 : Int)).toNat

/-- JSON values as stored in the whitelist file.  Timestamps are written by
the source with `QDateTime::toString(Qt::ISODate)` and read back with
`QDateTime::fromString(.., Qt::ISODate)`; that text is an injective encoding
of the whole-second instant it denotes (the empty string for an invalid
datetime), so the `iso` constructor carries the second count directly --
no claim inspects the characters of the date text. -/
inductive JVal where
  | str (s : String)
  | int (i : Int)
  | bool (b : Bool)
  | iso (secs : Option Nat)
  | obj (fields : List (String × JVal))
  | arr (items : List JVal)
  | null

/-- Embedding of `QJsonObject::operator[]`: looks a key up, yielding an undefined value
(modelled as `null`) when the key is absent or the value is not an object. -/
def JVal.getField (v : JVal) (key : String) : JVal :=
  match v with
  | .obj fields => ((fields.find? (fun p => p.1 == key)).map Prod.snd).getD .null
  | _ => .null

/-- Embedding of `QJsonValue::toString(defaultValue)`. -/
def JVal.toQStringD (v : JVal) (dflt : String) : String :=
  match v with
  | .str s => s
  | _ => dflt

/-- Embedding of `QJsonValue::toString()`. -/
def JVal.toQString (v : JVal) : String :=
  v.toQStringD ""

/-- Embedding of `QJsonValue::toInteger()` (default 0). -/
def JVal.toInteger (v : JVal) : Int :=
  match v with
  | .int i => i
  | _ => 0

/-- Embedding of `QJsonValue::toBool()` (default false). -/
def JVal.toQBool (v : JVal) : Bool :=
  match v with
  | .bool b => b
  | _ => false

/-- Embedding of `QJsonValue::toArray()` (default empty). -/
def JVal.toQArr (v : JVal) : List JVal :=
  match v with
  | .arr xs => xs
  | _ => []

/-- Serializing a `QDateTime` with `toString(Qt::ISODate)`: the millisecond
part is dropped (ISODate has second precision); an invalid datetime yields
the empty string (`iso none`). -/
def dtToJson (d : QDT) : JVal :=
  .iso (d.map (· / 1000))

/-- Embedding of `QDateTime::fromString(s, Qt::ISODate)`: a parsed instant has a zero
millisecond part; a non-date string yields an invalid datetime. -/
def dtFromJson (v : JVal) : QDT :=
  match v with
  | .iso (some s) => some (s * 1000)
  | _ => none

/-! ## Data model (`Types.h`) -/

/-- Embedding of `DeviceInfo` from `Types.h`, with the C++ member initializers as
defaults. -/
structure DeviceInfo where
  deviceNode : String := ""
  parentDevice : String := ""
  serial : String := ""
  vendor : String := ""
  model : String := ""
  label : String := ""
  fsType : String := ""
  mountPoint : String := ""
  sizeBytes : Nat := 0
  isRemovable : Bool := true
  isMounted : Bool := false
deriving DecidableEq, Repr

/-- Embedding of `DeviceInfo::uniqueId()`. -/
def DeviceInfo.uniqueId (d : DeviceInfo) : String :=
  if d.serial = "" then d.vendor ++ "_" ++ d.model
  else d.serial ++ "_" ++ d.vendor ++ "_" ++ d.model

/-- Embedding of `DeviceInfo::toJson()`: note that `parentDevice`, `mountPoint`,
`isRemovable` and `isMounted` are not written. -/
def DeviceInfo.toJson (d : DeviceInfo) : JVal :=
  .obj [("device_node", .str d.deviceNode),
        ("serial", .str d.serial),
        ("vendor", .str d.vendor),
        ("model", .str d.model),
        ("label", .str d.label),
        ("fs_type", .str d.fsType),
        ("size_bytes", .int (toSigned64 d.sizeBytes))]

/-- Embedding of `DeviceInfo::fromJson(obj)`: the fields it does not read keep their
member-initializer defaults. -/
def DeviceInfo.fromJson (v : JVal) : DeviceInfo :=
  { deviceNode := (v.getField "device_node").toQString
    serial := (v.getField "serial").toQString
    vendor := (v.getField "vendor").toQString
    model := (v.getField "model").toQString
    label := (v.getField "label").toQString
    fsType := (v.getField "fs_type").toQString
    sizeBytes := toUnsigned64 (v.getField "size_bytes").toInteger }

/-- Embedding of `DeviceRecord` from `Types.h`, with the C++ member initializers as
defaults. -/
structure DeviceRecord where
  uniqueId : String := ""
  hash : String := ""
  hashAlgorithm : String := "SHA256"
  firstSeen : QDT := none
  lastSeen : QDT := none
  lastHashed : QDT := none
  hashDurationMs : Nat := 0
  trustLevel : Int := 0
  autoMount : Bool := false
  notes : String := ""
  lastKnownInfo : DeviceInfo := {}
deriving DecidableEq, Repr

/-- Embedding of `DeviceRecord::toJson()`. -/
def DeviceRecord.toJson (r : DeviceRecord) : JVal :=
  .obj [("unique_id", .str r.uniqueId),
        ("hash", .str r.hash),
        ("hash_algorithm", .str r.hashAlgorithm),
        ("first_seen", dtToJson r.firstSeen),
        ("last_seen", dtToJson r.lastSeen),
        ("last_hashed", dtToJson r.lastHashed),
        ("hash_duration_ms", .int (toSigned64 r.hashDurationMs)),
        ("trust_level", .int r.trustLevel),
        ("auto_mount", .bool r.autoMount),
        ("notes", .str r.notes),
        ("device_info", r.lastKnownInfo.toJson)]

/-- Embedding of `DeviceRecord::fromJson(obj)`. -/
def DeviceRecord.fromJson (v : JVal) : DeviceRecord :=
  { uniqueId := (v.getField "unique_id").toQString
    hash := (v.getField "hash").toQString
    hashAlgorithm := (v.getField "hash_algorithm").toQStringD "SHA256"
    firstSeen := dtFromJson (v.getField "first_seen")
    lastSeen := dtFromJson (v.getField "last_seen")
    lastHashed := dtFromJson (v.getField "last_hashed")
    hashDurationMs := toUnsigned64 (v.getField "hash_duration_ms").toInteger
    trustLevel := (v.getField "trust_level").toInteger
    autoMount := (v.getField "auto_mount").toQBool
    notes := (v.getField "notes").toQString
    lastKnownInfo := DeviceInfo.fromJson (v.getField "device_info") }

/-! ## The in-memory device table (`DatabaseManager`'s `m_devices`)

`QHash<QString, DeviceRecord>` is embedded as an association list; `insert`
replaces the value in place when the key already exists and appends
otherwise. -/

abbrev DeviceTable := List (String × DeviceRecord)

/-- Embedding of `m_devices.contains(k)`. -/
def containsKey (t : DeviceTable) (k : String) : Bool :=
  t.any (fun p => p.1 == k)

/-- Embedding of `m_devices.find(k)` / `value(k)`. -/
def lookupKey (t : DeviceTable) (k : String) : Option DeviceRecord :=
  (t.find? (fun p => p.1 == k)).map Prod.snd

/-- Embedding of `m_devices.insert(k, r)` / `m_devices[k] = r`. -/
def insertKey (t : DeviceTable) (k : String) (r : DeviceRecord) : DeviceTable :=
  if containsKey t k then t.map (fun p => if p.1 == k then (k, r) else p)
  else t ++ [(k, r)]

/-- Embedding of `m_devices.remove(k)`. -/
def eraseKey (t : DeviceTable) (k : String) : DeviceTable :=
  t.filter (fun p => !(p.1 == k))

/-- Signals emitted by `DatabaseManager`. -/
inductive DbEvent where
  | deviceAdded (uniqueId : String)
  | deviceUpdated (uniqueId : String)
  | deviceRemoved (uniqueId : String)
  | databaseSaved
  | databaseLoaded (count : Nat)
  | databaseError (msg : String)
  | hashMismatch (uniqueId expected actual : String)
deriving DecidableEq, Repr

/-- Embedding of `DatabaseManager::addDevice`: fails if the key exists, else inserts the
record under its own `uniqueId` and emits `deviceAdded`. -/
def addDevice (t : DeviceTable) (r : DeviceRecord) :
    DeviceTable × Bool × List DbEvent :=
  if containsKey t r.uniqueId then (t, false, [])
  else (insertKey t r.uniqueId r, true, [.deviceAdded r.uniqueId])

/-- Embedding of `DatabaseManager::updateDevice`: fails if the key is absent. -/
def updateDevice (t : DeviceTable) (r : DeviceRecord) :
    DeviceTable × Bool × List DbEvent :=
  if containsKey t r.uniqueId then
    (insertKey t r.uniqueId r, true, [.deviceUpdated r.uniqueId])
  else (t, false, [])

/-- Embedding of `DatabaseManager::upsertDevice`. -/
def upsertDevice (t : DeviceTable) (r : DeviceRecord) :
    DeviceTable × List DbEvent :=
  let isNew := ¬ containsKey t r.uniqueId
  (insertKey t r.uniqueId r,
   if isNew then [.deviceAdded r.uniqueId] else [.deviceUpdated r.uniqueId])

/-- Embedding of `DatabaseManager::removeDevice`. -/
def removeDevice (t : DeviceTable) (uniqueId : String) :
    DeviceTable × Bool × List DbEvent :=
  if containsKey t uniqueId then
    (eraseKey t uniqueId, true, [.deviceRemoved uniqueId])
  else (t, false, [])

/-- Embedding of `DatabaseManager::updateHash`: mutates the stored record's `hash`,
`hashAlgorithm`, `hashDurationMs` and `lastHashed` fields in place (the key
and the record's `uniqueId` are untouched). -/
def updateHash (t : DeviceTable) (uniqueId hash algorithm : String)
    (durationMs : Nat) (now : QDT) : DeviceTable × Bool × List DbEvent :=
  if containsKey t uniqueId then
    (t.map (fun p =>
        if p.1 == uniqueId then
          (p.1, { p.2 with hash := hash, hashAlgorithm := algorithm,
                           hashDurationMs := durationMs, lastHashed := now })
        else p),
     true, [.deviceUpdated uniqueId])
  else (t, false, [])

/-- Embedding of `DatabaseManager::verifyHash`: a case-insensitive comparison against the
stored hash; a mismatch against a non-empty stored hash additionally emits
the `hashMismatch(uniqueId, expected, actual)` signal. -/
def verifyHash (t : DeviceTable) (uniqueId candidate : String) :
    Bool × List DbEvent :=
  match lookupKey t uniqueId with
  | none => (false, [])
  | some r =>
    let isMatch := qtCaseInsensEq r.hash candidate
    (isMatch,
     if ¬ isMatch ∧ r.hash ≠ "" then [.hashMismatch uniqueId r.hash candidate]
     else [])

/-- The loop of `DatabaseManager::loadFromFile`: each array item is parsed
with `DeviceRecord::fromJson` and inserted under its `uniqueId`, skipping
records whose `uniqueId` is empty. -/
def loadDevicesFromJson (items : List JVal) : DeviceTable :=
  items.foldl
    (fun t item =>
      let r := DeviceRecord.fromJson item
      if r.uniqueId = "" then t else insertKey t r.uniqueId r)
    []

/-- The loop of `DatabaseManager::importFromFile`: with `merge` an existing
key wins, without `merge` the table was cleared first and every parsed
record replaces any duplicate. -/
def importDevicesFromJson (t : DeviceTable) (items : List JVal)
    (merge : Bool) : DeviceTable × Nat :=
  items.foldl
    (fun acc item =>
      let r := DeviceRecord.fromJson item
      if ¬ containsKey acc.1 r.uniqueId then
        (insertKey acc.1 r.uniqueId r, acc.2 + 1)
      else if ¬ merge then (insertKey acc.1 r.uniqueId r, acc.2 + 1)
      else acc)
    (if merge then t else [], 0)

/-- The loop of `DatabaseManager::restoreFromBackup`: the table is cleared
and every parsed record inserted under its `uniqueId` (no empty-id check). -/
def restoreTableFromJson (items : List JVal) : DeviceTable :=
  items.foldl
    (fun t item =>
      let r := DeviceRecord.fromJson item
      insertKey t r.uniqueId r)
    []

/-- The `devices` array that `DatabaseManager::writeToFile` serializes. -/
def serializeDevices (t : DeviceTable) : List JVal :=
  t.map (fun p => p.2.toJson)

/-- Embedding of `save()` followed by `reload()`, restricted to the device table: the
serialized `devices` array is parsed back by the `loadFromFile` loop. -/
def saveReload (t : DeviceTable) : DeviceTable :=
  loadDevicesFromJson (serializeDevices t)

/-! ## Durability (`DatabaseManager::writeToFile`)

The file system is reduced to the two paths the function touches: the
database file `m_databasePath` and the temp file `m_databasePath + ".tmp"`,
each `none` (absent) or `some content`. -/

/-- The on-disk state `writeToFile` manipulates. -/
structure FsState where
  dbFile : Option String := none
  tmpFile : Option String := none
deriving DecidableEq, Repr

/-- Fault injection for `writeToFile`: whether the temp-file open fails,
whether the write is short (`written != data.size()`), and whether the final
`QFile::rename` fails. -/
structure WriteFaults where
  tempOpenFails : Bool := false
  shortWrite : Bool := false
  renameFails : Bool := false
deriving DecidableEq, Repr

/-- Embedding of `DatabaseManager::writeToFile`, step for step:
1. open the temp file (truncating); on failure, return false;
2. write the payload, flush, close; on a short write remove the temp file
   and return false;
3. if the destination exists, `QFile::remove` it (because `QFile::rename`
   fails when the destination exists);
4. `QFile::rename` the temp file over the destination; on failure return
   false -- at this point the previous destination has already been removed.
Returns the resulting file-system state and the success flag. -/
def writeToFile (fs : FsState) (data : String) (f : WriteFaults) :
    FsState × Bool :=
  if f.tempOpenFails then (fs, false)
  else
    let fs1 : FsState := { fs with tmpFile := some data }
    if f.shortWrite then ({ fs1 with tmpFile := none }, false)
    else
      let fs2 : FsState := { fs1 with dbFile := none }
      if f.renameFails then (fs2, false)
      else ({ dbFile := some data, tmpFile := none }, true)

/-! ## Backup rotation (`DatabaseManager::createBackup`)

Backups live in the database directory under names
`<base>_backup_<timestamp>.<suffix>` with a second-precision timestamp, so
a backup file is identified by its timestamp.  `QDir::entryInfoList(..,
QDir::Time)` lists them newest first; the state keeps that order, and a
fresh copy is placed at the position its timestamp sorts to. -/

/-- Embedding of `MAX_BACKUP_COUNT` from `DatabaseManager.h`. -/
def MAX_BACKUP_COUNT : Nat := 5

/-- The directory listing sorted by time (newest first) after one more file
appears: the new entry is placed before the first entry that is not newer
than it. -/
def insertByTimeDesc (e : Nat × String) :
    List (Nat × String) → List (Nat × String)
  | [] => [e]
  | b :: bs => if b.1 ≤ e.1 then e :: b :: bs else b :: insertByTimeDesc e bs

/-- The on-disk state `createBackup` manipulates: the database file, the
backup files (newest first, as `(timestamp, content)`), and the
`m_initialized` flag it checks. -/
structure BackupFs where
  initialized : Bool := false
  dbFile : Option String := none
  backups : List (Nat × String) := []
deriving DecidableEq, Repr

/-- Embedding of `DatabaseManager::createBackup()` with the default (timestamped) backup
path, called at time `now`:
- returns nothing when the store is uninitialized or the database file does
  not exist;
- `QFile::copy` fails (returning an empty path, no rotation) when a backup
  with the same timestamped name already exists;
- otherwise the copy is created and the cleanup loop removes the last entry
  of the newest-first listing (the oldest backup) while more than
  `MAX_BACKUP_COUNT` remain.
Returns the new state and the timestamp of the created backup, if any. -/
def createBackup (fs : BackupFs) (now : Nat) : BackupFs × Option Nat :=
  if ¬ fs.initialized then (fs, none)
  else
    match fs.dbFile with
    | none => (fs, none)
    | some content =>
      if fs.backups.any (fun b => b.1 == now) then (fs, none)
      else
        let listed := insertByTimeDesc (now, content) fs.backups
        let kept :=
          if listed.length ≤ MAX_BACKUP_COUNT then listed
          else listed.take MAX_BACKUP_COUNT
        ({ fs with backups := kept }, some now)

/-- A sequence of `createBackup()` calls at the given times. -/
def createBackupSeq (fs : BackupFs) (times : List Nat) : BackupFs :=
  times.foldl (fun s t => (createBackup s t).1) fs

/-! ## The integrity hasher (`HashWorker`) -/

/-- Embedding of `HashWorker::Algorithm`. -/
inductive Algorithm where
  | SHA256
  | SHA512
  | BLAKE2b
  | XXH3_128
deriving DecidableEq, Repr

/-- Embedding of `HashWorker::algorithmName`. -/
def algorithmName : Algorithm → String
  | .SHA256 => "SHA256"
  | .SHA512 => "SHA512"
  | .BLAKE2b => "BLAKE2b"
  | .XXH3_128 => "XXH3-128"

/-- The OpenSSL digests the worker can actually run. -/
inductive EvpMd where
  | sha256
  | sha512
  | blake2b512
deriving DecidableEq, Repr

/-- The `switch (state->config.algorithm)` in both hashing paths: XXH3 is
not available in OpenSSL, so `EVP_sha256()` is selected in its place. -/
def selectMd : Algorithm → EvpMd
  | .SHA256 => .sha256
  | .SHA512 => .sha512
  | .BLAKE2b => .blake2b512
  | .XXH3_128 => .sha256

/-- Embedding of `HashResult` from `Types.h`. -/
structure HashResult where
  deviceNode : String := ""
  hash : String := ""
  algorithm : String := ""
  bytesProcessed : Nat := 0
  durationMs : Nat := 0
  success : Bool := false
  errorMessage : String := ""
deriving DecidableEq, Repr

/-- Embedding of `HashWorker::HashJob`, with the defaults used by `MainWindow`. -/
structure HashJob where
  deviceNode : String := ""
  algorithm : Algorithm := .SHA256
  bufferSizeKB : Nat := 1024
  useMemoryMapping : Bool := false
deriving DecidableEq, Repr

/-- The raw device a job reads: `none` when `open()` fails (after the
`O_DIRECT` fallback), otherwise the successive byte chunks `read()` (or the
mmap loop) delivers, each chunk a list of byte values. -/
abbrev RawDevice := Option (List (List Nat))

/-- Embedding of `HashWorker::hashWithRead`, over an abstract digest function
`digest md chunks` standing for the `EVP_DigestInit/Update/Final` sequence:
the result's `algorithm` field starts as the requested algorithm's name and
is overwritten with "SHA256" in the XXH3 fallback arm of the `switch`; a
cancellation observed between chunks yields a failed "Cancelled" result;
otherwise the digest of all chunks is returned with `success = true`.
`durationMs` is not modelled (wall-clock time). -/
def hashWithRead (digest : EvpMd → List (List Nat) → String)
    (cfg : HashJob) (dev : RawDevice) (cancelled : Bool) : HashResult :=
  let base : HashResult :=
    { deviceNode := cfg.deviceNode, algorithm := algorithmName cfg.algorithm }
  match dev with
  | none =>
    { base with success := false, errorMessage := "Failed to open device" }
  | some chunks =>
    let md := selectMd cfg.algorithm
    let base :=
      if cfg.algorithm = .XXH3_128 then { base with algorithm := "SHA256" }
      else base
    if cancelled ∧ chunks ≠ [] then
      { base with success := false, errorMessage := "Cancelled" }
    else
      { base with hash := digest md chunks,
                  bytesProcessed := (chunks.map List.length).sum,
                  success := true }

/-- Embedding of `HashWorker::hashWithMmap`: same digest selection and XXH3 fallback
reporting; additionally a zero-size device and an `mmap` failure are
reported as failed results. -/
def hashWithMmap (digest : EvpMd → List (List Nat) → String)
    (cfg : HashJob) (dev : RawDevice) (cancelled : Bool)
    (mmapFails : Bool) : HashResult :=
  let base : HashResult :=
    { deviceNode := cfg.deviceNode, algorithm := algorithmName cfg.algorithm }
  match dev with
  | none =>
    { base with success := false,
                errorMessage := "mmap: Failed to open device" }
  | some chunks =>
    if (chunks.map List.length).sum = 0 then
      { base with success := false, errorMessage := "mmap: Device size is 0" }
    else
      let md := selectMd cfg.algorithm
      let base :=
        if cfg.algorithm = .XXH3_128 then { base with algorithm := "SHA256" }
        else base
      if cancelled then
        { base with success := false, errorMessage := "Cancelled" }
      else if mmapFails then
        { base with success := false, errorMessage := "mmap failed" }
      else
        { base with hash := digest md chunks,
                    bytesProcessed := (chunks.map List.length).sum,
                    success := true }

/-- Per-job bookkeeping (`HashWorker::JobState`): the cooperative
cancellation flag, and the future's result once the pool thread finished. -/
structure JobState where
  jobId : String := ""
  config : HashJob := {}
  cancelled : Bool := false
deriving DecidableEq, Repr

/-- Embedding of `HashWorker`'s mutable state: the active-job map `m_jobs`, the jobs
currently submitted to the global `QtConcurrent` thread pool, and
`m_maxConcurrent` (whose declaration and default live in `HashWorker.h`,
which only stores what `setMaxConcurrent` assigns). -/
structure HashWorkerState where
  jobs : List (String × JobState) := []
  dispatched : List String := []
  maxConcurrent : Nat := 1
deriving DecidableEq, Repr

/-- Signals emitted by `HashWorker`. -/
inductive HwEvent where
  | hashStarted (jobId deviceNode : String)
  | hashCompleted (jobId : String) (result : HashResult)
  | hashFailed (jobId msg : String)
  | hashCancelled (jobId : String)
deriving DecidableEq, Repr

/-- Embedding of `m_jobs.find(jobId)`. -/
def findJob (st : HashWorkerState) (jobId : String) : Option JobState :=
  (st.jobs.find? (fun p => p.1 == jobId)).map Prod.snd

/-- Embedding of `HashWorker::startHash` (the fresh job id, produced in the source from
the clock and a counter, is a parameter): the job is recorded in `m_jobs`
and immediately handed to `QtConcurrent::run`, i.e. submitted to the global
thread pool -- nothing in this function consults `m_maxConcurrent` or the
number of jobs already running. -/
def startHash (st : HashWorkerState) (jobId : String) (job : HashJob) :
    HashWorkerState × List HwEvent :=
  ({ st with
      jobs := st.jobs ++ [(jobId, { jobId := jobId, config := job })],
      dispatched := st.dispatched ++ [jobId] },
   [.hashStarted jobId job.deviceNode])

/-- Embedding of `HashWorker::setMaxConcurrent`: `m_maxConcurrent = qMax(1, max)`. -/
def setMaxConcurrent (st : HashWorkerState) (m : Int) : HashWorkerState :=
  { st with maxConcurrent := (max 1 m).toNat }

/-- Embedding of `HashWorker::cancelHash`: sets the job's cooperative cancellation flag
if the job is active. -/
def cancelHash (st : HashWorkerState) (jobId : String) :
    HashWorkerState × Bool :=
  if (st.jobs.any (fun p => p.1 == jobId)) then
    ({ st with
        jobs := st.jobs.map (fun p =>
          if p.1 == jobId then (p.1, { p.2 with cancelled := true }) else p) },
     true)
  else (st, false)

/-- Embedding of `HashWorker::onJobFinished` (the future's result is a parameter): the
job is removed from `m_jobs` first; then a set cancellation flag is
reported as `hashCancelled`, a successful result as `hashCompleted`, and
anything else as `hashFailed`. -/
def onJobFinished (st : HashWorkerState) (jobId : String)
    (futureResult : HashResult) : HashWorkerState × List HwEvent :=
  match findJob st jobId with
  | none => (st, [])
  | some js =>
    let st' : HashWorkerState :=
      { st with
          jobs := st.jobs.filter (fun p => !(p.1 == jobId)),
          dispatched := st.dispatched.filter (fun j => !(j == jobId)) }
    if js.cancelled then (st', [.hashCancelled jobId])
    else if futureResult.success then
      (st', [.hashCompleted jobId futureResult])
    else (st', [.hashFailed jobId futureResult.errorMessage])

/-! ## Orchestration (`MainWindow`) -/

/-- Embedding of `VerificationStatus` from `Types.h`. -/
inductive VerificationStatus where
  | Unknown
  | Pending
  | Hashing
  | Verified
  | Modified
  | NewDevice
  | Error
deriving DecidableEq, Repr

/-- The `AppSettings` fields the orchestration logic consults, with the
defaults from `Types.h`. -/
structure AppSettings where
  autoHashOnConnect : Bool := true
  autoHashOnEject : Bool := true
  requireConfirmationForNew : Bool := true
  requireConfirmationForModified : Bool := true
  blockModifiedDevices : Bool := false
  defaultTrustLevel : Int := 0
  hashAlgorithm : String := "SHA256"
  hashBufferSizeKB : Nat := 1024
  useMemoryMapping : Bool := true
  maxConcurrentHashes : Nat := 1
deriving DecidableEq, Repr

/-- Embedding of `DeviceInfo::displayName()`. -/
def DeviceInfo.displayName (d : DeviceInfo) : String :=
  if d.label ≠ "" then d.label
  else if d.model ≠ "" then d.model
  else ((d.deviceNode.splitOn "/").getLast?).getD ""

/-- Generic association-list lookup (`QHash::value`). -/
def assocFind {α : Type} (l : List (String × α)) (k : String) : Option α :=
  (l.find? (fun p => p.1 == k)).map Prod.snd

/-- Embedding of `MainWindow`'s state as far as the hash-completion and eject logic
reads it: the job-to-device map `m_hashJobDevices`, `m_activeHashCount`,
the device nodes that have a `DeviceCard` (`m_deviceCards`), the device
monitor's connected-device table, the whitelist database, and the
settings. -/
structure MainWindowState where
  hashJobDevices : List (String × String) := []
  activeHashCount : Int := 0
  cards : List String := []
  connected : List (String × DeviceInfo) := []
  database : DeviceTable := []
  settings : AppSettings := {}
deriving DecidableEq, Repr

/-- The outward-visible actions the orchestration code takes: card status
changes, mount/unmount/power-off requests to the mount collaborator, hash
jobs started, the modified-device alert dialog, and tray notifications. -/
inductive UiEvent where
  | statusSet (deviceNode : String) (status : VerificationStatus)
  | mountRequested (deviceNode : String)
  | unmountRequested (deviceNode : String)
  | powerOffRequested (deviceNode : String)
  | hashStartRequested (deviceNode : String)
  | modifiedAlertShown (deviceNode expected actual : String)
  | trayVerifyNotify (name : String) (status : VerificationStatus)
  | trayHashDoneNotify (name : String)
deriving DecidableEq, Repr

/-- Embedding of `MainWindow::showModifiedDeviceAlert`: the alert dialog is always
shown; with `blockModifiedDevices` set it only offers OK (no mount); without
it the user may accept the new hash (`userAccepts`, the dialog's outcome),
which stores the new hash via `updateHash` and requests a mount. -/
def showModifiedDeviceAlert (db : DeviceTable) (settings : AppSettings)
    (device : DeviceInfo) (expected actual : String) (userAccepts : Bool)
    (now : QDT) : DeviceTable × List UiEvent × List DbEvent :=
  let shown : UiEvent := .modifiedAlertShown device.deviceNode expected actual
  if settings.blockModifiedDevices then (db, [shown], [])
  else if userAccepts then
    let upd := updateHash db device.uniqueId actual settings.hashAlgorithm 0 now
    (upd.1, [shown, .mountRequested device.deviceNode], upd.2.2)
  else (db, [shown], [])

/-- Embedding of `MainWindow::onHashCompleted`, step for step: the job id is removed
from `m_hashJobDevices` (yielding "" if unknown) and the active count
decremented; an unknown job or a disconnected device stops processing; for
a known device with a non-empty stored hash the result is checked with
`DatabaseManager::verifyHash` -- a match sets the card to Verified and
mounts an unmounted device, a mismatch sets the card to Modified, shows the
modified-device alert and notifies the tray; otherwise (no record or empty
stored hash) the hash is stored as the first baseline, the card set to
Verified and an unmounted device mounted.  Returns the new state, the UI
events and the database signals, in emission order. -/
def onHashCompleted (st : MainWindowState) (jobId : String)
    (result : HashResult) (userAccepts : Bool) (now : QDT) :
    MainWindowState × List UiEvent × List DbEvent :=
  let deviceNode := (assocFind st.hashJobDevices jobId).getD ""
  let st1 : MainWindowState :=
    { st with
        hashJobDevices := st.hashJobDevices.filter (fun p => !(p.1 == jobId)),
        activeHashCount := max 0 (st.activeHashCount - 1) }
  if deviceNode = "" then (st1, [], [])
  else
    match assocFind st1.connected deviceNode with
    | none => (st1, [], [])
    | some info =>
      let deviceId := info.uniqueId
      let cardEvents := fun (s : VerificationStatus) =>
        if st1.cards.contains deviceNode then [UiEvent.statusSet deviceNode s]
        else []
      let firstHash : MainWindowState × List UiEvent × List DbEvent :=
        let upd := updateHash st1.database deviceId result.hash
          result.algorithm result.durationMs now
        ({ st1 with database := upd.1 },
         cardEvents .Verified ++ [.trayHashDoneNotify info.displayName] ++
           (if ¬ info.isMounted then [.mountRequested deviceNode] else []),
         upd.2.2)
      match lookupKey st1.database deviceId with
      | some record =>
        if record.hash ≠ "" then
          let ver := verifyHash st1.database deviceId result.hash
          if ver.1 then
            (st1,
             cardEvents .Verified ++
               [.trayVerifyNotify info.displayName .Verified] ++
               (if ¬ info.isMounted then [.mountRequested deviceNode] else []),
             ver.2)
          else
            let alert := showModifiedDeviceAlert st1.database st1.settings
              info record.hash result.hash userAccepts now
            ({ st1 with database := alert.1 },
             cardEvents .Modified ++ alert.2.1 ++
               [.trayVerifyNotify info.displayName .Modified],
             ver.2 ++ alert.2.2)
        else firstHash
      | none => firstHash

/-- Embedding of `MainWindow::onUnmountRequested`: with `autoHashOnEject` set a re-hash
is started and -- despite the comment "Mount manager will be called after
hash completes" -- no unmount request is recorded or issued anywhere;
without it the unmount is requested directly. -/
def onUnmountRequested (st : MainWindowState) (deviceNode : String) :
    List UiEvent :=
  match assocFind st.connected deviceNode with
  | none => []
  | some _ =>
    if st.settings.autoHashOnEject then [.hashStartRequested deviceNode]
    else [.unmountRequested deviceNode]

/-- Embedding of `MainWindow::onEjectRequested`: unmounts a mounted device and requests
power-off immediately; the `autoHashOnEject` setting is not consulted and
no hash is started. -/
def onEjectRequested (st : MainWindowState) (deviceNode : String) :
    List UiEvent :=
  match assocFind st.connected deviceNode with
  | none => []
  | some d =>
    (if d.isMounted then [UiEvent.unmountRequested deviceNode] else []) ++
      [.powerOffRequested deviceNode]

/-! ## Invariants and support lemmas -/

/-- The store invariant: every entry of the in-memory table is keyed by the
`uniqueId` of the record it maps to. -/
def KeyInv (t : DeviceTable) : Prop :=
  ∀ p ∈ t, p.2.uniqueId = p.1

instance decKeyInv (t : DeviceTable) : Decidable (KeyInv t) := by
  unfold KeyInv
  exact List.decidableBAll _ t

lemma containsKey_iff (t : DeviceTable) (k : String) :
    containsKey t k = true ↔ k ∈ t.map Prod.fst := by
  unfold containsKey
  rw [List.any_eq_true]
  constructor
  · rintro ⟨p, hp, he⟩
    exact List.mem_map.mpr ⟨p, hp, beq_iff_eq.mp he⟩
  · intro h
    obtain ⟨p, hp, hk⟩ := List.mem_map.mp h
    exact ⟨p, hp, beq_iff_eq.mpr hk⟩

lemma insertKey_of_not_contains {t : DeviceTable} {k : String}
    (r : DeviceRecord) (h : containsKey t k = false) :
    insertKey t k r = t ++ [(k, r)] := by
  simp [insertKey, h]

lemma mem_insertKey {t : DeviceTable} {k : String} {r : DeviceRecord}
    {p : String × DeviceRecord} (hp : p ∈ insertKey t k r) :
    p = (k, r) ∨ p ∈ t := by
  by_cases hc : containsKey t k = true
  · simp only [insertKey, hc, if_true] at hp
    obtain ⟨q, hq, rfl⟩ := List.mem_map.mp hp
    by_cases hqk : q.1 == k
    · simp [hqk]
    · simp only [hqk, if_false]
      exact Or.inr hq
  · simp only [insertKey, hc, if_false] at hp
    rcases List.mem_append.mp hp with h | h
    · exact Or.inr h
    · simp only [List.mem_singleton] at h
      exact Or.inl h

lemma keyInv_insertKey {t : DeviceTable} {k : String} {r : DeviceRecord}
    (ht : KeyInv t) (hr : r.uniqueId = k) : KeyInv (insertKey t k r) := by
  intro p hp
  rcases mem_insertKey hp with rfl | h
  · exact hr
  · exact ht p h

/-! ## C1 -/

/-- C1: the claim says a save that fails at any stage leaves the previous
on-disk whitelist file untouched.  This fails at the rename stage:
`writeToFile` removes the existing destination before calling
`QFile::rename`, so when the rename fails the previous file is already
gone (`dbFile = none`), not untouched.  The first two conjuncts show the
temp-open and short-write stages do preserve the previous file; the last
two evaluate the rename-failure stage on a concrete prior file. -/
theorem C1_rename_failure_destroys_previous_file :
    (∀ (fs : FsState) (data : String),
        (writeToFile fs data
          { tempOpenFails := true, shortWrite := false,
            renameFails := false }).1.dbFile = fs.dbFile) ∧
    (∀ (fs : FsState) (data : String),
        (writeToFile fs data
          { tempOpenFails := false, shortWrite := true,
            renameFails := false }).1.dbFile = fs.dbFile) ∧
    (writeToFile { dbFile := some "PREV", tmpFile := none } "NEW"
        { tempOpenFails := false, shortWrite := false,
          renameFails := true }).2 = false ∧
    (writeToFile { dbFile := some "PREV", tmpFile := none } "NEW"
        { tempOpenFails := false, shortWrite := false,
          renameFails := true }).1.dbFile = none :=
  ⟨fun _ _ => rfl, fun _ _ => rfl, rfl, rfl⟩

/-! ## C4 -/

/-- C4: the claim says the number of concurrently executing hash jobs never
exceeds the maximum configured via `setMaxConcurrent`.  But `startHash`
dispatches every job to the thread pool unconditionally -- it never reads
`m_maxConcurrent` -- so with a maximum of 1 two `startHash` calls leave two
jobs dispatched and active at once. -/
theorem C4_startHash_ignores_configured_maximum :
    (∀ (st : HashWorkerState) (jobId : String) (job : HashJob),
        ((startHash st jobId job).1).dispatched = st.dispatched ++ [jobId]) ∧
    ((startHash ((startHash (setMaxConcurrent {} 1) "job1" {}).1)
        "job2" {}).1).maxConcurrent = 1 ∧
    ((startHash ((startHash (setMaxConcurrent {} 1) "job1" {}).1)
        "job2" {}).1).dispatched.length = 2 ∧
    ((startHash ((startHash (setMaxConcurrent {} 1) "job1" {}).1)
        "job2" {}).1).jobs.length = 2 := by
  refine ⟨fun st jobId job => rfl, by decide, by decide, by decide⟩

/-! ## C5 -/

/-- The orchestrator state used to evaluate the eject logic: one known,
mounted device and the default settings (`autoHashOnEject = true`). -/
def ejectScenario : MainWindowState :=
  { connected := [("/dev/sdb1", { deviceNode := "/dev/sdb1",
                                  isMounted := true })] }

/-- C5: the claim says an eject with re-hash-on-eject enabled re-hashes
first and issues the unmount/power-off only after the hash outcome is
known.  But `onEjectRequested` never consults `autoHashOnEject`: it issues
the unmount and power-off immediately and starts no hash.  The unmount
path does start a hash, but issues no unmount afterwards and records no
pending one -- and `onHashCompleted` never emits an unmount or power-off
request, so the deferred unmount promised by the source comment never
happens. -/
theorem C5_eject_proceeds_without_hash_outcome :
    ejectScenario.settings.autoHashOnEject = true ∧
    onEjectRequested ejectScenario "/dev/sdb1" =
      [.unmountRequested "/dev/sdb1", .powerOffRequested "/dev/sdb1"] ∧
    onUnmountRequested ejectScenario "/dev/sdb1" =
      [.hashStartRequested "/dev/sdb1"] ∧
    (∀ (st : MainWindowState) (jobId : String) (result : HashResult)
        (userAccepts : Bool) (now : QDT) (n : String),
        UiEvent.unmountRequested n ∉
          (onHashCompleted st jobId result userAccepts now).2.1 ∧
        UiEvent.powerOffRequested n ∉
          (onHashCompleted st jobId result userAccepts now).2.1) := by
  refine ⟨rfl, by decide, by decide, ?_⟩
  intro st jobId result userAccepts now n
  unfold onHashCompleted
  set node := (assocFind st.hashJobDevices jobId).getD "" with hnode
  by_cases h0 : node = ""
  · simp [h0]
  · simp only [h0, if_false]
    cases hconn : assocFind
        ({ st with
            hashJobDevices :=
              st.hashJobDevices.filter (fun p => !(p.1 == jobId)),
            activeHashCount :=
              max 0 (st.activeHashCount - 1) : MainWindowState }).connected
        node with
    | none => simp
    | some info =>
      simp only []
      constructor <;>
      · rcases hrec : lookupKey st.database info.uniqueId with _ | record <;>
          simp only [hrec, showModifiedDeviceAlert] <;>
          (try split_ifs) <;>
          first
            | rfl
            | simp

/-! ## C2 -/

/-- C2: for a known device whose stored hash is non-empty, a completed hash
that differs case-insensitively sets the device card to Modified, shows the
modified-device alert, emits the `hashMismatch` signal carrying
`(expected, actual)` -- and with `blockModifiedDevices` set the emitted
event lists contain no mount request at all. -/
theorem C2_modified_device_mismatch_and_block (st : MainWindowState)
    (jobId node : String) (info : DeviceInfo) (record : DeviceRecord)
    (result : HashResult) (userAccepts : Bool) (now : QDT)
    (hjob : assocFind st.hashJobDevices jobId = some node)
    (hne : node ≠ "")
    (hconn : assocFind st.connected node = some info)
    (hcard : st.cards.contains node = true)
    (hrec : lookupKey st.database info.uniqueId = some record)
    (hH1 : record.hash ≠ "")
    (hdiff : qtCaseInsensEq record.hash result.hash = false)
    (hblock : st.settings.blockModifiedDevices = true) :
    (onHashCompleted st jobId result userAccepts now).2.1 =
      [.statusSet node .Modified,
       .modifiedAlertShown info.deviceNode record.hash result.hash,
       .trayVerifyNotify info.displayName .Modified] ∧
    (onHashCompleted st jobId result userAccepts now).2.2 =
      [.hashMismatch info.uniqueId record.hash result.hash] := by
  unfold onHashCompleted
  simp only [hjob, Option.getD_some, hne, if_false, hconn, hrec, hH1,
    verifyHash, showModifiedDeviceAlert, hdiff, hblock, hcard]
  simp [hne, hH1]

/-- Concrete device record for evaluating C2. -/
def c2Rec : DeviceRecord := { uniqueId := "S_V_M", hash := "AA" }

/-- Concrete connected device for evaluating C2. -/
def c2Info : DeviceInfo :=
  { deviceNode := "/dev/sdb1", serial := "S", vendor := "V", model := "M" }

/-- Concrete orchestrator state for evaluating C2: one hash job in flight
for a connected, known device with stored hash "AA", and
`blockModifiedDevices` enabled. -/
def c2State : MainWindowState :=
  { hashJobDevices := [("job1", "/dev/sdb1")],
    cards := ["/dev/sdb1"],
    connected := [("/dev/sdb1", c2Info)],
    database := [("S_V_M", c2Rec)],
    settings := { blockModifiedDevices := true } }

theorem C2_modified_device_mismatch_and_block_witness :
    (onHashCompleted c2State "job1" { hash := "BB", success := true }
        false none).2.1 =
      [.statusSet "/dev/sdb1" .Modified,
       .modifiedAlertShown "/dev/sdb1" "AA" "BB",
       .trayVerifyNotify "M" .Modified] ∧
    (onHashCompleted c2State "job1" { hash := "BB", success := true }
        false none).2.2 =
      [.hashMismatch "S_V_M" "AA" "BB"] := by
  have h := C2_modified_device_mismatch_and_block c2State "job1" "/dev/sdb1"
    c2Info c2Rec { hash := "BB", success := true } false none
    (by decide) (by decide) (by decide) (by decide) (by decide) (by decide)
    (by decide) (by decide)
  exact ⟨h.1.trans (by decide), h.2.trans (by decide)⟩

/-! ## C3 -/

/-- C3: a job requesting XXH3-128 (which the OpenSSL backend does not
provide) falls back to SHA-256 in both the buffered-read path and the
memory-map path, and in both paths a successful result reports "SHA256" --
the digest actually used -- in its `algorithm` field, not the requested
name. -/
theorem C3_xxh3_falls_back_and_reports_sha256
    (digest : EvpMd → List (List Nat) → String) (cfg : HashJob)
    (dev : RawDevice) (cancelled mmapFails : Bool)
    (halg : cfg.algorithm = .XXH3_128) :
    selectMd cfg.algorithm = .sha256 ∧
    ((hashWithRead digest cfg dev cancelled).success = true →
      (hashWithRead digest cfg dev cancelled).algorithm = "SHA256" ∧
      (hashWithRead digest cfg dev cancelled).hash =
        digest .sha256 (dev.getD [])) ∧
    ((hashWithMmap digest cfg dev cancelled mmapFails).success = true →
      (hashWithMmap digest cfg dev cancelled mmapFails).algorithm =
        "SHA256" ∧
      (hashWithMmap digest cfg dev cancelled mmapFails).hash =
        digest .sha256 (dev.getD [])) := by
  obtain ⟨dn, alg, buf, mm⟩ := cfg
  simp only at halg
  subst halg
  refine ⟨rfl, ?_, ?_⟩ <;>
  · cases dev with
    | none => intro h; simp [hashWithRead, hashWithMmap] at h
    | some chunks =>
      simp only [hashWithRead, hashWithMmap, selectMd]
      (try split_ifs) <;> simp_all

theorem C3_xxh3_falls_back_and_reports_sha256_witness :
    (hashWithRead (fun _ _ => "d1gest") { algorithm := .XXH3_128 }
        (some [[0, 1]]) false).algorithm = "SHA256" ∧
    (hashWithRead (fun _ _ => "d1gest") { algorithm := .XXH3_128 }
        (some [[0, 1]]) false).hash = "d1gest" ∧
    (hashWithMmap (fun _ _ => "d1gest") { algorithm := .XXH3_128 }
        (some [[0, 1]]) false false).algorithm = "SHA256" := by
  have h := C3_xxh3_falls_back_and_reports_sha256 (fun _ _ => "d1gest")
    { algorithm := .XXH3_128 } (some [[0, 1]]) false false rfl
  exact ⟨(h.2.1 (by decide)).1, (h.2.1 (by decide)).2,
    (h.2.2 (by decide)).1⟩

/-! ## C6 -/

/-- C6: when a job's cancellation flag is set by the time its completion is
processed, `onJobFinished` reports the outcome as `hashCancelled` -- never
`hashFailed` or `hashCompleted` -- and the job is gone from the active job
map afterwards. -/
theorem C6_cancelled_job_reported_cancelled_and_removed
    (st : HashWorkerState) (jobId : String) (js : JobState)
    (futureResult : HashResult)
    (hfind : findJob st jobId = some js) (hc : js.cancelled = true) :
    (onJobFinished st jobId futureResult).2 = [.hashCancelled jobId] ∧
    findJob (onJobFinished st jobId futureResult).1 jobId = none := by
  unfold onJobFinished
  simp only [hfind, hc, if_true]
  refine ⟨by simp, ?_⟩
  have hnone : List.find? (fun p => p.1 == jobId)
      (List.filter (fun p => !(p.1 == jobId)) st.jobs) = none := by
    rw [List.find?_eq_none]
    intro p hp
    have h2 := (List.mem_filter.mp hp).2
    simpa using h2
  simp [findJob, hnone]

theorem C6_cancelled_job_reported_cancelled_and_removed_witness :
    (onJobFinished
        { jobs := [("job1", { jobId := "job1", cancelled := true })],
          dispatched := ["job1"] } "job1" { success := true }).2 =
      [.hashCancelled "job1"] ∧
    findJob (onJobFinished
        { jobs := [("job1", { jobId := "job1", cancelled := true })],
          dispatched := ["job1"] } "job1" { success := true }).1 "job1" =
      none :=
  C6_cancelled_job_reported_cancelled_and_removed
    { jobs := [("job1", { jobId := "job1", cancelled := true })],
      dispatched := ["job1"] } "job1"
    { jobId := "job1", cancelled := true } { success := true }
    (by decide) (by decide)

/-! ## C7 -/

/-- C7: for a device present in the store, `verifyHash` returns true
exactly when the stored hash equals the candidate case-insensitively; when
it returns false against a non-empty stored hash it additionally emits the
`hashMismatch(id, expected, actual)` signal (and no signal otherwise). -/
theorem C7_verifyHash_case_insensitive_with_mismatch_signal
    (t : DeviceTable) (uniqueId candidate : String) (r : DeviceRecord)
    (h : lookupKey t uniqueId = some r) :
    (verifyHash t uniqueId candidate).1 = qtCaseInsensEq r.hash candidate ∧
    ((verifyHash t uniqueId candidate).1 = false → r.hash ≠ "" →
      (verifyHash t uniqueId candidate).2 =
        [.hashMismatch uniqueId r.hash candidate]) ∧
    ((verifyHash t uniqueId candidate).1 = true →
      (verifyHash t uniqueId candidate).2 = []) := by
  unfold verifyHash
  rw [h]
  by_cases hm : qtCaseInsensEq r.hash candidate = true
  · simp [hm]
  · have hm0 : qtCaseInsensEq r.hash candidate = false := by
      simpa using hm
    refine ⟨by simp [hm0], fun _ hne => by simp [hm0, hne],
      fun hcontr => ?_⟩
    simp [hm0] at hcontr

theorem C7_verifyHash_case_insensitive_with_mismatch_signal_witness :
    (verifyHash [("id1", { uniqueId := "id1", hash := "AB" })]
        "id1" "ab").1 = true ∧
    (verifyHash [("id1", { uniqueId := "id1", hash := "AB" })]
        "id1" "cd").1 = false ∧
    (verifyHash [("id1", { uniqueId := "id1", hash := "AB" })]
        "id1" "cd").2 = [.hashMismatch "id1" "AB" "cd"] := by
  have h1 := C7_verifyHash_case_insensitive_with_mismatch_signal
    [("id1", { uniqueId := "id1", hash := "AB" })] "id1" "ab"
    { uniqueId := "id1", hash := "AB" } (by decide)
  have h2 := C7_verifyHash_case_insensitive_with_mismatch_signal
    [("id1", { uniqueId := "id1", hash := "AB" })] "id1" "cd"
    { uniqueId := "id1", hash := "AB" } (by decide)
  exact ⟨h1.1.trans (by decide), h2.1.trans (by decide),
    h2.2.1 (h2.1.trans (by decide)) (by decide)⟩

/-! ## C8 -/

lemma createBackup_fresh (fs : BackupFs) (now : Nat) (c : String)
    (hinit : fs.initialized = true) (hdb : fs.dbFile = some c)
    (hnew : ∀ b ∈ fs.backups, b.1 < now) :
    createBackup fs now =
      ({ fs with backups :=
          if ((now, c) :: fs.backups).length ≤ MAX_BACKUP_COUNT
          then (now, c) :: fs.backups
          else ((now, c) :: fs.backups).take MAX_BACKUP_COUNT },
       some now) := by
  have hins : insertByTimeDesc (now, c) fs.backups = (now, c) :: fs.backups := by
    cases hb : fs.backups with
    | nil => rfl
    | cons b bs =>
      have hlt : b.1 < now := hnew b (by rw [hb]; exact List.mem_cons_self b bs)
      simp [insertByTimeDesc, Nat.le_of_lt hlt]
  have hany : fs.backups.any (fun b => b.1 == now) = false := by
    rw [List.any_eq_false]
    intro b hb
    simp only [beq_iff_eq]
    exact Nat.ne_of_lt (hnew b hb)
  unfold createBackup
  simp [hinit, hdb, hany, hins]

/-- C8: starting from an initialized store with an existing database file
and no backups, six `createBackup()` calls at increasing times leave
exactly `MAX_BACKUP_COUNT = 5` backups, and the one removed is the oldest
(the first call's). -/
theorem C8_backup_rotation_keeps_five_newest (c : String)
    (t1 t2 t3 t4 t5 t6 : Nat)
    (h12 : t1 < t2) (h23 : t2 < t3) (h34 : t3 < t4) (h45 : t4 < t5)
    (h56 : t5 < t6) :
    (createBackupSeq { initialized := true, dbFile := some c, backups := [] }
        [t1, t2, t3, t4, t5, t6]).backups =
      [(t6, c), (t5, c), (t4, c), (t3, c), (t2, c)] ∧
    (createBackupSeq { initialized := true, dbFile := some c, backups := [] }
        [t1, t2, t3, t4, t5, t6]).backups.length = MAX_BACKUP_COUNT := by
  have s1 : (createBackup
      { initialized := true, dbFile := some c, backups := [] } t1).1 =
      { initialized := true, dbFile := some c, backups := [(t1, c)] } := by
    rw [createBackup_fresh _ t1 c rfl rfl (by simp)]
    simp [MAX_BACKUP_COUNT]
  have s2 : (createBackup
      { initialized := true, dbFile := some c, backups := [(t1, c)] } t2).1 =
      { initialized := true, dbFile := some c,
        backups := [(t2, c), (t1, c)] } := by
    rw [createBackup_fresh _ t2 c rfl rfl (by simpa using h12)]
    simp [MAX_BACKUP_COUNT]
  have s3 : (createBackup
      { initialized := true, dbFile := some c,
        backups := [(t2, c), (t1, c)] } t3).1 =
      { initialized := true, dbFile := some c,
        backups := [(t3, c), (t2, c), (t1, c)] } := by
    rw [createBackup_fresh _ t3 c rfl rfl (by simp; omega)]
    simp [MAX_BACKUP_COUNT]
  have s4 : (createBackup
      { initialized := true, dbFile := some c,
        backups := [(t3, c), (t2, c), (t1, c)] } t4).1 =
      { initialized := true, dbFile := some c,
        backups := [(t4, c), (t3, c), (t2, c), (t1, c)] } := by
    rw [createBackup_fresh _ t4 c rfl rfl (by simp; omega)]
    simp [MAX_BACKUP_COUNT]
  have s5 : (createBackup
      { initialized := true, dbFile := some c,
        backups := [(t4, c), (t3, c), (t2, c), (t1, c)] } t5).1 =
      { initialized := true, dbFile := some c,
        backups := [(t5, c), (t4, c), (t3, c), (t2, c), (t1, c)] } := by
    rw [createBackup_fresh _ t5 c rfl rfl (by simp; omega)]
    simp [MAX_BACKUP_COUNT]
  have s6 : (createBackup
      { initialized := true, dbFile := some c,
        backups := [(t5, c), (t4, c), (t3, c), (t2, c), (t1, c)] } t6).1 =
      { initialized := true, dbFile := some c,
        backups := [(t6, c), (t5, c), (t4, c), (t3, c), (t2, c)] } := by
    rw [createBackup_fresh _ t6 c rfl rfl (by simp; omega)]
    simp [MAX_BACKUP_COUNT]
  unfold createBackupSeq
  simp [List.foldl_cons, List.foldl_nil, s1, s2, s3, s4, s5, s6,
    MAX_BACKUP_COUNT]

theorem C8_backup_rotation_keeps_five_newest_witness :
    (createBackupSeq
        { initialized := true, dbFile := some "db", backups := [] }
        [1, 2, 3, 4, 5, 6]).backups =
      [(6, "db"), (5, "db"), (4, "db"), (3, "db"), (2, "db")] ∧
    (createBackupSeq
        { initialized := true, dbFile := some "db", backups := [] }
        [1, 2, 3, 4, 5, 6]).backups.length = MAX_BACKUP_COUNT :=
  C8_backup_rotation_keeps_five_newest "db" 1 2 3 4 5 6
    (by decide) (by decide) (by decide) (by decide) (by decide)

/-! ## C9 (counterexample) -/

/-- C9: the claim says every field of every record round-trips through
`save()`/`reload()`, including the denormalized last-known device snapshot.
Counterexample: `DeviceInfo::toJson` does not write `mountPoint` (nor
`parentDevice`, `isRemovable`, `isMounted`), so a record whose snapshot has
a non-empty `mountPoint` comes back changed. -/
theorem C9_roundtrip_counterexample :
    saveReload
        [("dev1", { uniqueId := "dev1",
                    lastKnownInfo := { mountPoint := "/mnt/usb" } })] ≠
      [("dev1", { uniqueId := "dev1",
                  lastKnownInfo := { mountPoint := "/mnt/usb" } })] := by
  decide

/-! ## C9 (amended round-trip) -/

/-- The snapshot fields `DeviceInfo::toJson` actually persists determine
the snapshot completely only when the non-persisted fields hold their
defaults; `sizeBytes` is stored through a `uint64 -> qint64` cast, exact
below `2^64`. -/
def SnapshotPersistable (d : DeviceInfo) : Prop :=
  d.parentDevice = "" ∧ d.mountPoint = "" ∧ d.isRemovable = true ∧
  d.isMounted = false ∧ d.sizeBytes < 2 ^ 64

instance decSnapshotPersistable (d : DeviceInfo) :
    Decidable (SnapshotPersistable d) := by
  unfold SnapshotPersistable
  infer_instance

/-- A record `save()`/`reload()` can reproduce exactly: non-empty key
(`loadFromFile` drops empty ids), whole-second timestamps (ISODate drops
milliseconds), an in-range duration, and a persistable snapshot. -/
def RecordPersistable (r : DeviceRecord) : Prop :=
  r.uniqueId ≠ "" ∧
  r.firstSeen.getD 0 % 1000 = 0 ∧
  r.lastSeen.getD 0 % 1000 = 0 ∧
  r.lastHashed.getD 0 % 1000 = 0 ∧
  r.hashDurationMs < 2 ^ 64 ∧
  SnapshotPersistable r.lastKnownInfo

instance decRecordPersistable (r : DeviceRecord) :
    Decidable (RecordPersistable r) := by
  unfold RecordPersistable
  infer_instance

lemma toUnsigned64_toSigned64 (n : Nat) (h : n < 2 ^ 64) :
    toUnsigned64 (toSigned64 n) = n := by
  unfold toSigned64 toUnsigned64
  split <;> omega

lemma dtRoundtrip (t : QDT) (h : t.getD 0 % 1000 = 0) :
    dtFromJson (dtToJson t) = t := by
  cases t with
  | none => rfl
  | some ms =>
    simp only [dtToJson, Option.map_some', dtFromJson, Option.some.injEq]
    exact Nat.div_mul_cancel (Nat.dvd_of_mod_eq_zero (by simpa using h))

lemma deviceInfo_roundtrip (d : DeviceInfo) (h : SnapshotPersistable d) :
    DeviceInfo.fromJson d.toJson = d := by
  obtain ⟨h1, h2, h3, h4, h5⟩ := h
  cases d
  simp_all [DeviceInfo.fromJson, DeviceInfo.toJson, JVal.getField,
    JVal.toQString, JVal.toQStringD, JVal.toInteger,
    toUnsigned64_toSigned64 _ h5]

lemma deviceRecord_roundtrip (r : DeviceRecord) (h : RecordPersistable r) :
    DeviceRecord.fromJson r.toJson = r := by
  obtain ⟨h1, hf, hl, hh, hd, hinfo⟩ := h
  have hi := deviceInfo_roundtrip r.lastKnownInfo hinfo
  cases r
  simp_all [DeviceRecord.fromJson, DeviceRecord.toJson, JVal.getField,
    JVal.toQString, JVal.toQStringD, JVal.toInteger, JVal.toQBool,
    dtRoundtrip _ hf, dtRoundtrip _ hl, dtRoundtrip _ hh,
    toUnsigned64_toSigned64 _ hd]

lemma load_serialize_aux (t : DeviceTable) :
    ∀ acc : DeviceTable,
    (∀ p ∈ t, p.2.uniqueId = p.1 ∧ RecordPersistable p.2) →
    (acc.map Prod.fst ++ t.map Prod.fst).Nodup →
    List.foldl
      (fun a item =>
        let r := DeviceRecord.fromJson item
        if r.uniqueId = "" then a else insertKey a r.uniqueId r)
      acc (t.map (fun p => p.2.toJson)) = acc ++ t := by
  induction t with
  | nil => intro acc _ _; simp
  | cons p t ih =>
    intro acc hrec hnd
    obtain ⟨k, r⟩ := p
    obtain ⟨hk, hp⟩ := hrec (k, r) (List.mem_cons_self _ _)
    simp only at hk
    have hr : DeviceRecord.fromJson r.toJson = r := deviceRecord_roundtrip r hp
    have hkne : r.uniqueId ≠ "" := hk ▸ hp.1
    have hnotin : containsKey acc k = false := by
      rcases List.nodup_append.mp hnd with ⟨-, -, hdisj⟩
      rw [← Bool.not_eq_true, containsKey_iff]
      intro hmem
      exact hdisj hmem (by simp)
    have hstep : insertKey acc r.uniqueId r = acc ++ [(k, r)] := by
      rw [hk]
      exact insertKey_of_not_contains r hnotin
    simp only [List.map_cons, List.foldl_cons, hr, if_neg hp.1, hstep]
    rw [ih (acc ++ [(k, r)])
      (fun q hq => hrec q (List.mem_cons_of_mem _ hq))
      (by
        simp only [List.map_append, List.map_cons, List.map_nil,
          List.append_assoc, List.singleton_append]
        exact hnd)]
    simp

/-- C9 (amended): `save()` followed by `reload()` reproduces the table
exactly for every table whose entries satisfy the store's key invariant
with distinct non-empty keys and whose records only use the fields the
JSON serialization persists: whole-second timestamps, in-range durations,
and a last-known snapshot whose non-serialized fields (`parentDevice`,
`mountPoint`, `isRemovable`, `isMounted`) hold their defaults. -/
theorem C9_save_reload_roundtrip_for_persistable_records (t : DeviceTable)
    (hkey : KeyInv t) (hnd : (t.map Prod.fst).Nodup)
    (hrec : ∀ p ∈ t, RecordPersistable p.2) :
    saveReload t = t := by
  unfold saveReload serializeDevices loadDevicesFromJson
  have h := load_serialize_aux t []
    (fun p hp => ⟨hkey p hp, hrec p hp⟩) (by simpa using hnd)
  simpa using h

theorem C9_save_reload_roundtrip_for_persistable_records_witness :
    saveReload
        [("S_V_M", { uniqueId := "S_V_M", hash := "AA",
                     hashAlgorithm := "SHA256",
                     firstSeen := some 1700000000000,
                     lastSeen := some 1700000001000,
                     lastHashed := some 1700000002000,
                     hashDurationMs := 1234, trustLevel := 1,
                     autoMount := true, notes := "usb stick",
                     lastKnownInfo :=
                       { deviceNode := "/dev/sdb1", serial := "S",
                         vendor := "V", model := "M", label := "L",
                         fsType := "vfat", sizeBytes := 16000000000 } })] =
      [("S_V_M", { uniqueId := "S_V_M", hash := "AA",
                   hashAlgorithm := "SHA256",
                   firstSeen := some 1700000000000,
                   lastSeen := some 1700000001000,
                   lastHashed := some 1700000002000,
                   hashDurationMs := 1234, trustLevel := 1,
                   autoMount := true, notes := "usb stick",
                   lastKnownInfo :=
                     { deviceNode := "/dev/sdb1", serial := "S",
                       vendor := "V", model := "M", label := "L",
                       fsType := "vfat", sizeBytes := 16000000000 } })] :=
  C9_save_reload_roundtrip_for_persistable_records _
    (by decide) (by decide) (by decide)

/-! ## C10 -/

lemma load_keyInv_aux (items : List JVal) :
    ∀ acc : DeviceTable,
    (∀ p ∈ acc, p.2.uniqueId = p.1 ∧ p.1 ≠ "") →
    ∀ p ∈ List.foldl
        (fun a item =>
          let r := DeviceRecord.fromJson item
          if r.uniqueId = "" then a else insertKey a r.uniqueId r)
        acc items,
      p.2.uniqueId = p.1 ∧ p.1 ≠ "" := by
  induction items with
  | nil => intro acc hacc p hp; exact hacc p hp
  | cons item items ih =>
    intro acc hacc p hp
    simp only [List.foldl_cons] at hp
    refine ih _ ?_ p hp
    intro q hq
    by_cases hid : (DeviceRecord.fromJson item).uniqueId = ""
    · rw [if_pos hid] at hq
      exact hacc q hq
    · rw [if_neg hid] at hq
      rcases mem_insertKey hq with rfl | hmem
      · exact ⟨rfl, hid⟩
      · exact hacc q hmem

lemma import_keyInv_aux (items : List JVal) (merge : Bool) :
    ∀ acc : DeviceTable × Nat, KeyInv acc.1 →
    KeyInv (List.foldl
        (fun acc item =>
          let r := DeviceRecord.fromJson item
          if ¬ containsKey acc.1 r.uniqueId then
            (insertKey acc.1 r.uniqueId r, acc.2 + 1)
          else if ¬ merge then (insertKey acc.1 r.uniqueId r, acc.2 + 1)
          else acc)
        acc items).1 := by
  induction items with
  | nil => intro acc hacc; exact hacc
  | cons item items ih =>
    intro acc hacc
    simp only [List.foldl_cons]
    apply ih
    split_ifs <;> first
      | exact keyInv_insertKey hacc rfl
      | exact hacc

lemma restore_keyInv_aux (items : List JVal) :
    ∀ acc : DeviceTable, KeyInv acc →
    KeyInv (List.foldl
        (fun t item =>
          let r := DeviceRecord.fromJson item
          insertKey t r.uniqueId r)
        acc items) := by
  induction items with
  | nil => intro acc hacc; exact hacc
  | cons item items ih =>
    intro acc hacc
    simp only [List.foldl_cons]
    exact ih _ (keyInv_insertKey hacc rfl)

/-- C10: every entry of the in-memory table is keyed by the `uniqueId` of
the record it maps to.  `loadFromFile` establishes this (and never inserts
an empty-id record), and `addDevice`, `updateDevice`, `upsertDevice`,
`updateHash`, `removeDevice`, `importFromFile` and `restoreFromBackup`
preserve it. -/
theorem C10_table_keyed_by_uniqueId :
    (∀ items, KeyInv (loadDevicesFromJson items) ∧
      ∀ p ∈ loadDevicesFromJson items, p.1 ≠ "") ∧
    (∀ (t : DeviceTable) (r : DeviceRecord),
      KeyInv t → KeyInv (addDevice t r).1) ∧
    (∀ (t : DeviceTable) (r : DeviceRecord),
      KeyInv t → KeyInv (updateDevice t r).1) ∧
    (∀ (t : DeviceTable) (r : DeviceRecord),
      KeyInv t → KeyInv (upsertDevice t r).1) ∧
    (∀ (t : DeviceTable) (uniqueId hash algorithm : String)
        (durationMs : Nat) (now : QDT),
      KeyInv t →
        KeyInv (updateHash t uniqueId hash algorithm durationMs now).1) ∧
    (∀ (t : DeviceTable) (uniqueId : String),
      KeyInv t → KeyInv (removeDevice t uniqueId).1) ∧
    (∀ (t : DeviceTable) (items : List JVal) (merge : Bool),
      KeyInv t → KeyInv (importDevicesFromJson t items merge).1) ∧
    (∀ items, KeyInv (restoreTableFromJson items)) := by
  refine ⟨?_, ?_, ?_, ?_, ?_, ?_, ?_, ?_⟩
  · intro items
    have h := load_keyInv_aux items [] (by simp)
    exact ⟨fun p hp => (h p hp).1, fun p hp => (h p hp).2⟩
  · intro t r ht
    unfold addDevice
    split_ifs
    · exact ht
    · exact keyInv_insertKey ht rfl
  · intro t r ht
    unfold updateDevice
    split_ifs
    · exact keyInv_insertKey ht rfl
    · exact ht
  · intro t r ht
    exact keyInv_insertKey ht rfl
  · intro t uniqueId hash algorithm durationMs now ht
    unfold updateHash
    split_ifs
    · intro p hp
      obtain ⟨q, hq, rfl⟩ := List.mem_map.mp hp
      by_cases hqk : q.1 == uniqueId
      · simp only [hqk, if_true]
        exact ht q hq
      · simp only [hqk, if_false]
        exact ht q hq
    · exact ht
  · intro t uniqueId ht
    unfold removeDevice
    split_ifs
    · intro p hp
      exact ht p (List.mem_filter.mp hp).1
    · exact ht
  · intro t items merge ht
    unfold importDevicesFromJson
    apply import_keyInv_aux
    split_ifs
    · exact ht
    · intro p hp
      simp at hp
  · intro items
    exact restore_keyInv_aux items [] (by intro p hp; simp at hp)

theorem C10_table_keyed_by_uniqueId_witness :
    KeyInv (addDevice [("a_b", { uniqueId := "a_b" })]
        { uniqueId := "c_d", hash := "AA" }).1 :=
  C10_table_keyed_by_uniqueId.2.1 [("a_b", { uniqueId := "a_b" })]
    { uniqueId := "c_d", hash := "AA" } (by decide)

end FlashSentry
